import Mathlib

/-!
Verification of the fossology-rs client library against its specification.

The development shallowly embeds the library's data model and operations:
pure request-building and response-handling logic is translated directly
from the source; the HTTP transport and serde's byte-level parsing are
abstracted as explicit environments recording, for each exchange, whether
the send succeeded, the raw response bytes, and whether those bytes parse
as each candidate shape.  Every operation additionally returns the list of
HTTP requests it attempted, so that claims about which endpoints are
contacted become statements about that trace.
-/

/-! ## Version parsing and comparison

`Fossology::version_is_at_least` delegates to the external version-compare
crate (`VersionCompare::compare_to` with `CompOp::Ge`).  The crate is a
dependency, not part of this repository, so its behaviour on plain dotted
numeric version strings (the only inputs the library feeds it) is embedded
here: split on the dot separator, parse each component as a number, and
compare componentwise, a missing trailing component counting as zero. -/

/-- Split a character list at every dot, keeping empty segments. -/
def splitDots : List Char → List (List Char)
  | [] => [[]]
  | c :: cs =>
    if c = '.' then [] :: splitDots cs
    else
      match splitDots cs with
      | [] => [[c]]
      | p :: ps => (c :: p) :: ps

/-- Numeric value of a decimal digit character, if it is one. -/
def digitVal (c : Char) : Option Nat :=
  if c.isDigit then some (c.toNat - 48) else none

/-- Parse a nonempty run of decimal digits as a number. -/
def partToNat (cs : List Char) : Option Nat :=
  match cs with
  | [] => none
  | _ :: _ => cs.foldlM (fun acc c => (digitVal c).map fun d => acc * 10 + d) 0

/-- Numeric components of a dotted numeric version string such as "1.3.0";
`none` when some component is not a nonempty run of digits. -/
def parseVersion (s : String) : Option (List Nat) :=
  (splitDots s.toList).mapM partToNat

/-- All components are zero. -/
def allZero : List Nat → Bool
  | [] => true
  | x :: xs => decide (x = 0) && allZero xs

/-- Componentwise comparison of numeric version components as the
version-compare crate performs it: when one side runs out of components the
other side's remaining components count only if one of them is nonzero, so
"1.0" and "1.0.0" compare equal. -/
def cmpParts : List Nat → List Nat → Ordering
  | [], ys => if allZero ys then Ordering.eq else Ordering.lt
  | x :: xs, [] => if x = 0 then cmpParts xs [] else Ordering.gt
  | x :: xs, y :: ys =>
    if x < y then Ordering.lt
    else if y < x then Ordering.gt
    else cmpParts xs ys

/-- The crate's `compare_to(a, b, Ge)`: `none` when either side fails to
parse, otherwise whether a is at least b. -/
def versionCompareGe (a b : String) : Option Bool :=
  match parseVersion a, parseVersion b with
  | some xs, some ys => some (decide (cmpParts xs ys ≠ Ordering.lt))
  | _, _ => none

/-! The specification's comparison order, stated independently of the code:
pad the shorter component list with trailing zeros (missing components are
treated as 0) and compare the equal-length lists lexicographically, most
significant component first, inclusively. -/

/-- Pad a component list with trailing zeros to length n. -/
def padZeros (xs : List Nat) (n : Nat) : List Nat :=
  xs ++ List.replicate (n - xs.length) 0

/-- Lexicographic greater-or-equal on component lists of equal length. -/
def componentsGe : List Nat → List Nat → Bool
  | _, [] => true
  | [], _ :: _ => false
  | x :: xs, y :: ys => if x = y then componentsGe xs ys else decide (y < x)

/-- The specification order on parsed versions: componentwise numeric
greater-or-equal after zero-padding both sides to a common length. -/
def specVersionGe (xs ys : List Nat) : Bool :=
  componentsGe (padZeros xs (max xs.length ys.length))
    (padZeros ys (max xs.length ys.length))

/-! ## Data model (src/lib.rs) -/

/-- `FossologyError` (src/lib.rs).  The payloads of the transport, file and
serde variants are not inspected by the library, so they are not modelled;
the string-carrying variants keep their strings. -/
inductive FossologyError
  | FileError
  | RequestError
  | UnexpectedResponse (s : String)
  | SerdeError
  | UnsupportedVersion
  | Other (s : String)
deriving DecidableEq, Repr

/-- `Info` (src/lib.rs): the service-reported error payload. -/
structure Info where
  code : Int
  message : String
  error_type : String
deriving DecidableEq, Repr

/-- `FossologyResponse<T>` (src/lib.rs): serde-untagged union of the
success payload and the error payload. -/
inductive FossologyResponse (T : Type)
  | Response (res : T)
  | ApiError (err : Info)
deriving DecidableEq, Repr

/-- `FossologyResponse::return_response_or_error` (src/lib.rs). -/
def FossologyResponse.return_response_or_error {T : Type} :
    FossologyResponse T → Except FossologyError T
  | FossologyResponse.Response res => Except.ok res
  | FossologyResponse.ApiError err =>
    Except.error (FossologyError.UnexpectedResponse err.message)

/-- serde's decode of the untagged `FossologyResponse<T>` from response
bytes, given whether those bytes parse as each variant's shape: untagged
variants are tried in declaration order, `Response(T)` first. -/
def decodeUntagged {T : Type} (parseT : Option T) (parseInfo : Option Info) :
    Option (FossologyResponse T) :=
  match parseT with
  | some t => some (FossologyResponse.Response t)
  | none => parseInfo.map FossologyResponse.ApiError

/-- The `Fossology` handle (src/lib.rs): base uri, token and the version
retrieved during creation.  The reqwest client field carries no observable
data and is not modelled. -/
structure Fossology where
  uri : String
  token : String
  version : String
deriving DecidableEq, Repr

/-- `Fossology::version_is_at_least` (src/lib.rs): compare the stored
version against the given one with the crate's Ge comparison, mapping a
comparison failure to `Other`. -/
def Fossology.version_is_at_least (f : Fossology) (v : String) :
    Except FossologyError Bool :=
  match versionCompareGe f.version v with
  | some b => Except.ok b
  | none => Except.error (FossologyError.Other "Failed to compare versions")

/-! ## C1: the compatibility comparison is numeric, not lexical -/

theorem padZeros_length_self (xs : List Nat) : padZeros xs xs.length = xs := by
  simp [padZeros]

theorem padZeros_cons_succ (x : Nat) (xs : List Nat) (n : Nat) :
    padZeros (x :: xs) (n + 1) = x :: padZeros xs n := by
  simp [padZeros, Nat.succ_sub_succ]

theorem specVersionGe_nil_left (ys : List Nat) :
    specVersionGe [] ys = componentsGe (List.replicate ys.length 0) ys := by
  simp [specVersionGe, padZeros, Nat.zero_max]

theorem componentsGe_replicate_zero (ys : List Nat) :
    componentsGe (List.replicate ys.length 0) ys = allZero ys := by
  induction ys with
  | nil => rfl
  | cons y ys ih =>
    by_cases hy : y = 0
    · subst hy
      simp [List.replicate_succ, componentsGe, allZero, ih]
    · simp [List.replicate_succ, componentsGe, allZero, hy]
      omega

theorem specVersionGe_cons_nil (x : Nat) (xs : List Nat) :
    specVersionGe (x :: xs) [] =
      if x = 0 then specVersionGe xs [] else decide (0 < x) := by
  have h1 : specVersionGe (x :: xs) [] =
      componentsGe (x :: xs) (List.replicate (xs.length + 1) 0) := by
    simp [specVersionGe, padZeros, Nat.max_zero]
  have h2 : specVersionGe xs [] =
      componentsGe xs (List.replicate xs.length 0) := by
    simp [specVersionGe, padZeros, Nat.max_zero]
  rw [h1, h2, List.replicate_succ, componentsGe]

theorem specVersionGe_cons_cons (x y : Nat) (xs ys : List Nat) :
    specVersionGe (x :: xs) (y :: ys) =
      if x = y then specVersionGe xs ys else decide (y < x) := by
  have hm : max (xs.length + 1) (ys.length + 1) = max xs.length ys.length + 1 :=
    Nat.succ_max_succ xs.length ys.length
  simp only [specVersionGe, List.length_cons, hm, padZeros_cons_succ]
  rw [componentsGe]

theorem cmpParts_ne_lt_iff (xs ys : List Nat) :
    cmpParts xs ys ≠ Ordering.lt ↔ specVersionGe xs ys = true := by
  induction xs generalizing ys with
  | nil =>
    rw [specVersionGe_nil_left, componentsGe_replicate_zero, cmpParts]
    by_cases h : allZero ys = true
    · simp [h]
    · simp [h]
  | cons x xs ih =>
    cases ys with
    | nil =>
      rw [specVersionGe_cons_nil, cmpParts]
      by_cases hx : x = 0
      · simpa [hx] using ih []
      · simp [hx]
        omega
    | cons y ys =>
      rw [specVersionGe_cons_cons, cmpParts]
      rcases Nat.lt_trichotomy x y with h | h | h
      · have hne : ¬x = y := Nat.ne_of_lt h
        simp [h, hne]
        omega
      · subst h
        simpa [Nat.lt_irrefl] using ih ys
      · have hne : ¬x = y := Nat.ne_of_gt h
        simp [Nat.lt_asymm h, h, hne]

/-- C1: for every pair of dotted numeric version strings, the compatibility
check `version_is_at_least` succeeds and answers exactly the inclusive
numeric componentwise (major.minor.patch, missing components zero)
comparison of the two versions, so the result is decided numerically and
never by lexical string comparison. -/
theorem version_is_at_least_agrees_with_numeric_order
    (u t a b : String) (xs ys : List Nat)
    (ha : parseVersion a = some xs) (hb : parseVersion b = some ys) :
    Fossology.version_is_at_least ⟨u, t, a⟩ b = Except.ok (specVersionGe xs ys) := by
  have hvc : versionCompareGe a b = some (decide (cmpParts xs ys ≠ Ordering.lt)) := by
    simp [versionCompareGe, ha, hb]
  have hdec : decide (cmpParts xs ys ≠ Ordering.lt) = specVersionGe xs ys := by
    have h := cmpParts_ne_lt_iff xs ys
    cases hs : specVersionGe xs ys
    · rw [hs] at h
      simp only [Bool.false_eq_true, iff_false, not_not] at h
      simpa using h
    · rw [hs] at h
      exact decide_eq_true (h.mpr rfl)
  simp [Fossology.version_is_at_least, hvc, hdec]

/-- C1 witness: the specification's three sample pairs, decided by the
theorem at the parsed component lists. -/
theorem version_is_at_least_agrees_with_numeric_order_witness :
    Fossology.version_is_at_least ⟨"u", "t", "1.10.0"⟩ "1.3.0" = Except.ok true ∧
    Fossology.version_is_at_least ⟨"u", "t", "1.3.0"⟩ "1.3.0" = Except.ok true ∧
    Fossology.version_is_at_least ⟨"u", "t", "1.2.9"⟩ "1.3.0" = Except.ok false := by
  refine ⟨?_, ?_, ?_⟩
  · rw [version_is_at_least_agrees_with_numeric_order "u" "t" "1.10.0" "1.3.0"
      [1, 10, 0] [1, 3, 0] (by decide) (by decide)]
    rfl
  · rw [version_is_at_least_agrees_with_numeric_order "u" "t" "1.3.0" "1.3.0"
      [1, 3, 0] [1, 3, 0] (by decide) (by decide)]
    rfl
  · rw [version_is_at_least_agrees_with_numeric_order "u" "t" "1.2.9" "1.3.0"
      [1, 2, 9] [1, 3, 0] (by decide) (by decide)]
    rfl

/-! ## Transport model

Requests are modelled by their observable content: method, full url, extra
headers, query parameters and the bearer token attached by `bearer_auth`
(`none` for unauthenticated requests).  Bodies (json and multipart) are not
inspected by any claim and are not modelled. -/

/-- HTTP method of a request. -/
inductive Method
  | get
  | post
deriving DecidableEq, Repr

/-- Observable content of one HTTP request built by the library. -/
structure Request where
  method : Method
  url : String
  headers : List (String × String)
  queryParams : List (String × String)
  bearer : Option String
deriving DecidableEq, Repr

/-- `Fossology::init_get_with_token` (src/lib.rs). -/
def Fossology.init_get_with_token (f : Fossology) (path : String) : Request :=
  ⟨Method.get, f.uri ++ "/" ++ path, [], [], some f.token⟩

/-- `Fossology::init_get` (src/lib.rs). -/
def Fossology.init_get (f : Fossology) (path : String) : Request :=
  ⟨Method.get, f.uri ++ "/" ++ path, [], [], none⟩

/-- `Fossology::init_post_with_token` (src/lib.rs). -/
def Fossology.init_post_with_token (f : Fossology) (path : String) : Request :=
  ⟨Method.post, f.uri ++ "/" ++ path, [], [], some f.token⟩

/-- reqwest's `RequestBuilder::header`: append one header. -/
def Request.header (r : Request) (k v : String) : Request :=
  ⟨r.method, r.url, r.headers ++ [(k, v)], r.queryParams, r.bearer⟩

/-- reqwest's `RequestBuilder::query`: append one query parameter. -/
def Request.query (r : Request) (k v : String) : Request :=
  ⟨r.method, r.url, r.headers, r.queryParams ++ [(k, v)], r.bearer⟩

/-- Abstract view of one endpoint exchange: whether sending and reading the
body succeed, the raw response bytes, and whether those bytes parse as the
success shape T and as the error shape `Info` (standing for serde's
structural decode of the same bytes). -/
structure HttpExchange (T : Type) where
  sendOk : Bool
  bytes : String
  parseT : Option T
  parseInfo : Option Info

/-! ## Version resolution (src/lib.rs) -/

/-- `ApiLicense` (src/info.rs). -/
structure ApiLicense where
  name : String
  url : String
deriving DecidableEq, Repr

/-- `ApiInformationV1` (src/info.rs): the legacy /version shape. -/
structure ApiInformationV1 where
  version : String
  security : List String
deriving DecidableEq, Repr

/-- `ApiInformation` (src/info.rs): the modern /info shape. -/
structure ApiInformation where
  name : String
  description : String
  version : String
  security : List String
  contact : String
  license : ApiLicense
deriving DecidableEq, Repr

/-- Abstract view of the remote server for the construction-time version
probe: whether each endpoint's send succeeds and whether its body parses as
the corresponding shape. -/
structure Server where
  infoSendOk : Bool
  infoParse : Option ApiInformation
  versionSendOk : Bool
  versionParse : Option ApiInformationV1
deriving DecidableEq, Repr

/-- The authenticated GET {uri}/info request issued by the probe. -/
def infoProbeRequest (uri token : String) : Request :=
  ⟨Method.get, uri ++ "/info", [], [], some token⟩

/-- The unauthenticated GET {uri}/version request issued by the probe. -/
def versionProbeRequest (uri : String) : Request :=
  ⟨Method.get, uri ++ "/version", [], [], none⟩

/-- `Fossology::version` (src/lib.rs), named versionProbe here because the
handle's field projection already carries the source name: issue the
authenticated /info request; a transport failure propagates; if the body
parses as `ApiInformation` return its version field; otherwise issue the
unauthenticated /version request, returning the `ApiInformationV1` version
field or, if that body does not parse either, the decode error's text
wrapped in `Other` (the text of reqwest's decode error is abstracted by a
fixed string, the library never inspects it).  The request trace is
returned alongside. -/
def Fossology.versionProbe (uri token : String) (s : Server) :
    Except FossologyError String × List Request :=
  if s.infoSendOk then
    match s.infoParse with
    | some i => (Except.ok i.version, [infoProbeRequest uri token])
    | none =>
      if s.versionSendOk then
        match s.versionParse with
        | some v =>
          (Except.ok v.version,
            [infoProbeRequest uri token, versionProbeRequest uri])
        | none =>
          (Except.error (FossologyError.Other "error decoding response body"),
            [infoProbeRequest uri token, versionProbeRequest uri])
      else
        (Except.error FossologyError.RequestError,
          [infoProbeRequest uri token, versionProbeRequest uri])
  else
    (Except.error FossologyError.RequestError, [infoProbeRequest uri token])

/-- `Fossology::new` (src/lib.rs): resolve the version, then build the
handle with the given uri and token and the resolved version; a resolution
failure propagates and no handle is produced. -/
def Fossology.new (uri token : String) (s : Server) :
    Except FossologyError Fossology × List Request :=
  match Fossology.versionProbe uri token s with
  | (Except.ok v, tr) => (Except.ok ⟨uri, token, v⟩, tr)
  | (Except.error e, tr) => (Except.error e, tr)

/-! ## Endpoint operations -/

/-- `License` (src/license.rs). -/
structure License where
  id : Int
  short_name : String
  full_name : String
  text : String
  risk : Option Int
  is_candidate : Option Bool
deriving DecidableEq, Repr

/-- `get_license` (src/license.rs): gate on version at least "1.3.0"; the
path-parameter form GET license/{shortName} when the gate holds, the
header-parameter form GET license with a shortName header otherwise; an
optional groupName header; then decode the bytes as the untagged envelope,
unwrap `Response`, turn `ApiError` into `Other` with the service message,
and surface a dual decode failure as `UnexpectedResponse` carrying the raw
bytes. -/
def get_license (f : Fossology) (short_name : String)
    (group_name : Option String) (env : HttpExchange License) :
    Except FossologyError License × List Request :=
  match f.version_is_at_least "1.3.0" with
  | Except.error e => (Except.error e, [])
  | Except.ok ge =>
    let b :=
      if ge then f.init_get_with_token ("license/" ++ short_name)
      else (f.init_get_with_token "license").header "shortName" short_name
    let b :=
      match group_name with
      | some g => b.header "groupName" g
      | none => b
    if env.sendOk then
      (match decodeUntagged env.parseT env.parseInfo with
        | some (FossologyResponse.Response res) => Except.ok res
        | some (FossologyResponse.ApiError err) =>
          Except.error (FossologyError.Other err.message)
        | none => Except.error (FossologyError.UnexpectedResponse env.bytes),
        [b])
    else (Except.error FossologyError.RequestError, [b])

/-- `Status` (src/info.rs). -/
structure Status where
  status : String
deriving DecidableEq, Repr

/-- `Health` (src/info.rs): the three-field health record. -/
structure Health where
  status : String
  scheduler : Status
  db : Status
deriving DecidableEq, Repr

/-- `health` (src/info.rs): one GET {uri}/health built directly on the
client without `bearer_auth` and without any version gate; the body is
decoded through `.json()`, whose parse failure surfaces as the transport
library's error (no raw bytes kept); `Response` is unwrapped and
`ApiError` becomes `Other` with the service message. -/
def health (f : Fossology) (env : HttpExchange Health) :
    Except FossologyError Health × List Request :=
  let req : Request := ⟨Method.get, f.uri ++ "/health", [], [], none⟩
  if env.sendOk then
    (match decodeUntagged env.parseT env.parseInfo with
      | some (FossologyResponse.Response res) => Except.ok res
      | some (FossologyResponse.ApiError err) =>
        Except.error (FossologyError.Other err.message)
      | none => Except.error FossologyError.RequestError,
      [req])
  else (Except.error FossologyError.RequestError, [req])

/-- `info` (src/info.rs): gated on version at least "1.3.3" by a direct
`VersionCompare::compare_to`; below the gate it returns
`UnsupportedVersion` without sending anything; at or above it sends the
authenticated GET info, decodes the envelope through `.json()` and
discharges it with `return_response_or_error`. -/
def info (f : Fossology) (env : HttpExchange ApiInformation) :
    Except FossologyError ApiInformation × List Request :=
  match versionCompareGe f.version "1.3.3" with
  | none => (Except.error (FossologyError.Other "Failed to compare versions"), [])
  | some false => (Except.error FossologyError.UnsupportedVersion, [])
  | some true =>
    let req := f.init_get_with_token "info"
    if env.sendOk then
      (match decodeUntagged env.parseT env.parseInfo with
        | some r => r.return_response_or_error
        | none => Except.error FossologyError.RequestError,
        [req])
    else (Except.error FossologyError.RequestError, [req])

/-- `Hash` (src/upload.rs). -/
structure Hash where
  sha1 : Option String
  md5 : Option String
  sha256 : Option String
  size : Option Int
deriving DecidableEq, Repr

/-- `Upload` (src/upload.rs). -/
structure Upload where
  folder_id : Int
  folder_name : String
  id : Int
  description : String
  upload_name : String
  upload_date : String
  assignee : Option Int
  hash : Hash
deriving DecidableEq, Repr

/-- `get_upload_by_id` (src/upload.rs): authenticated GET uploads/{id};
the envelope is decoded through `.json()` (a dual parse failure surfaces
as the transport library's error); a success payload yields `some`, the
error envelope with the exact message "Upload does not exist" yields
`none`, and any other error envelope becomes `Other` with its message. -/
def get_upload_by_id (f : Fossology) (upload_id : Int)
    (env : HttpExchange Upload) :
    Except FossologyError (Option Upload) × List Request :=
  let req : Request :=
    ⟨Method.get, f.uri ++ "/uploads/" ++ toString upload_id, [], [],
      some f.token⟩
  if env.sendOk then
    (match decodeUntagged env.parseT env.parseInfo with
      | some (FossologyResponse.Response res) => Except.ok (some res)
      | some (FossologyResponse.ApiError err) =>
        if err.message = "Upload does not exist" then Except.ok none
        else Except.error (FossologyError.Other err.message)
      | none => Except.error FossologyError.RequestError,
      [req])
  else (Except.error FossologyError.RequestError, [req])

/-- `Findings` (src/upload.rs). -/
structure Findings where
  scanner : List String
  conclusion : List String
  copyright : List String
deriving DecidableEq, Repr

/-- `FilesearchResponse` (src/upload.rs). -/
structure FilesearchResponse where
  hash : Hash
  findings : Option Findings
  uploads : List Int
  message : Option String
deriving DecidableEq, Repr

/-- `filesearch` (src/upload.rs): authenticated POST filesearch with the
hash list as body (not modelled) and an optional groupName header; the
envelope is decoded through `.json()`; a success payload is filtered so
that entries whose message is the literal "Not found" are dropped; the
error envelope becomes `Other` with its message. -/
def filesearch (f : Fossology) (hashes : List Hash)
    (group_name : Option String)
    (env : HttpExchange (List FilesearchResponse)) :
    Except FossologyError (List FilesearchResponse) × List Request :=
  let b := f.init_post_with_token "filesearch"
  let b :=
    match group_name with
    | some g => b.header "groupName" g
    | none => b
  if env.sendOk then
    (match decodeUntagged env.parseT env.parseInfo with
      | some (FossologyResponse.Response res) =>
        Except.ok (res.filter fun i => decide ¬(i.message = some "Not found"))
      | some (FossologyResponse.ApiError err) =>
        Except.error (FossologyError.Other err.message)
      | none => Except.error FossologyError.RequestError,
      [b])
  else (Except.error FossologyError.RequestError, [b])

/-- `JobStatus` (src/job.rs). -/
inductive JobStatus
  | Completed
  | Failed
  | Queued
  | Processing
deriving DecidableEq, Repr

/-- `Job` (src/job.rs). -/
structure Job where
  id : Int
  name : String
  queue_date : String
  upload_id : String
  user_id : String
  group_id : String
  eta : Int
  status : JobStatus
deriving DecidableEq, Repr

/-- `get_jobs` (src/job.rs): authenticated GET jobs with the upload id as
query parameter and group/limit/page as headers when given; the decoded
envelope is returned to the caller as is, wrapped only in `Ok`, with a
parse failure surfacing as the transport library's error. -/
def get_jobs (f : Fossology) (upload_id : Option Int)
    (group_name : Option String) (limit : Option Int) (page : Option Int)
    (env : HttpExchange (List Job)) :
    Except FossologyError (FossologyResponse (List Job)) × List Request :=
  let b := f.init_get_with_token "jobs"
  let b :=
    match upload_id with
    | some u => b.query "upload" (toString u)
    | none => b
  let b :=
    match group_name with
    | some g => b.header "groupName" g
    | none => b
  let b :=
    match limit with
    | some l => b.header "limit" (toString l)
    | none => b
  let b :=
    match page with
    | some p => b.header "page" (toString p)
    | none => b
  if env.sendOk then
    (match decodeUntagged env.parseT env.parseInfo with
      | some r => Except.ok r
      | none => Except.error FossologyError.RequestError,
      [b])
  else (Except.error FossologyError.RequestError, [b])

/-! ## C2, C3, C9: version resolution and the handle -/

/-- A sample modern /info payload used to instantiate theorems. -/
def sampleApiInformation : ApiInformation :=
  ⟨"FOSSology API", "REST api for FOSSology", "1.4.1", ["bearerAuth"],
    "fossology", ⟨"GPL-2.0", "https://spdx.org/licenses/GPL-2.0"⟩⟩

/-- C2: version resolution issues the authenticated /info request first;
when the /info body parses as the modern shape, the probe returns that
shape's version field and the trace holds no further request; when it does
not parse, the probe issues exactly one further unauthenticated /version
request and returns the legacy shape's version field. -/
theorem versionProbe_modern_then_legacy (uri token : String) (s : Server) :
    ((Fossology.versionProbe uri token s).2.head? =
      some (infoProbeRequest uri token)) ∧
    (∀ i, s.infoSendOk = true → s.infoParse = some i →
      Fossology.versionProbe uri token s =
        (Except.ok i.version, [infoProbeRequest uri token])) ∧
    (∀ v, s.infoSendOk = true → s.infoParse = none → s.versionSendOk = true →
      s.versionParse = some v →
      Fossology.versionProbe uri token s =
        (Except.ok v.version,
          [infoProbeRequest uri token, versionProbeRequest uri])) ∧
    (infoProbeRequest uri token).bearer = some token ∧
    (versionProbeRequest uri).bearer = none := by
  obtain ⟨iso, ip, vso, vp⟩ := s
  refine ⟨?_, ?_, ?_, rfl, rfl⟩
  · cases iso <;> cases ip <;> cases vso <;> cases vp <;>
      simp [Fossology.versionProbe]
  · intro i hs hp
    simp only at hs hp
    subst hs hp
    simp [Fossology.versionProbe]
  · intro v hs hp hvs hvp
    simp only at hs hp hvs hvp
    subst hs hp hvs hvp
    simp [Fossology.versionProbe]

/-- C2 witness: a modern server yields its info version over the single
authenticated /info request; a legacy server yields the legacy version
over the /info then /version trace. -/
theorem versionProbe_modern_then_legacy_witness :
    Fossology.versionProbe "http://s" "tok"
        ⟨true, some sampleApiInformation, false, none⟩ =
      (Except.ok "1.4.1", [infoProbeRequest "http://s" "tok"]) ∧
    Fossology.versionProbe "http://s" "tok"
        ⟨true, none, true, some ⟨"1.2.0", ["bearerAuth"]⟩⟩ =
      (Except.ok "1.2.0",
        [infoProbeRequest "http://s" "tok", versionProbeRequest "http://s"]) := by
  constructor
  · exact (versionProbe_modern_then_legacy "http://s" "tok" _).2.1
      sampleApiInformation rfl rfl
  · exact (versionProbe_modern_then_legacy "http://s" "tok" _).2.2.1
      ⟨"1.2.0", ["bearerAuth"]⟩ rfl rfl rfl rfl

/-- C3: the probe attempts at most two requests, and when neither attempt
yields a parseable version (the send failed or the body did not parse, on
both endpoints) the probe returns an error and construction fails with the
same error over the same trace, producing no handle. -/
theorem versionProbe_bounded_two_attempts (uri token : String) (s : Server) :
    ((Fossology.versionProbe uri token s).2.length ≤ 2) ∧
    ((s.infoSendOk = false ∨ s.infoParse = none) →
      (s.versionSendOk = false ∨ s.versionParse = none) →
      ∃ e, Fossology.versionProbe uri token s =
          (Except.error e, (Fossology.versionProbe uri token s).2) ∧
        Fossology.new uri token s =
          (Except.error e, (Fossology.versionProbe uri token s).2)) := by
  obtain ⟨iso, ip, vso, vp⟩ := s
  refine ⟨?_, ?_⟩
  · cases iso <;> cases ip <;> cases vso <;> cases vp <;>
      simp [Fossology.versionProbe]
  · intro h1 h2
    cases iso <;> cases ip <;> cases vso <;> cases vp <;>
      first
        | exact ⟨_, rfl, rfl⟩
        | simp_all

/-- C3 witness: a server that responds unparseably on both endpoints gives
a bounded trace, a failed resolution and no handle. -/
theorem versionProbe_bounded_two_attempts_witness :
    ((Fossology.versionProbe "http://s" "tok" ⟨true, none, true, none⟩).2.length ≤ 2) ∧
    ∃ e, Fossology.versionProbe "http://s" "tok" ⟨true, none, true, none⟩ =
        (Except.error e,
          (Fossology.versionProbe "http://s" "tok" ⟨true, none, true, none⟩).2) ∧
      Fossology.new "http://s" "tok" ⟨true, none, true, none⟩ =
        (Except.error e,
          (Fossology.versionProbe "http://s" "tok" ⟨true, none, true, none⟩).2) := by
  have h := versionProbe_bounded_two_attempts "http://s" "tok" ⟨true, none, true, none⟩
  exact ⟨h.1, h.2 (Or.inr rfl) (Or.inr rfl)⟩

/-- C9: construction resolves the version exactly once: a successfully
constructed handle stores the given uri and token and exactly the probe's
resolved version, construction performs exactly the probe's requests and
nothing more, and the compatibility decision is a pure function of the
stored version string, so every decision made through one handle uses the
same cached version. -/
theorem handle_fields_fixed_at_construction (uri token : String) (s : Server)
    (f : Fossology) (tr : List Request)
    (h : Fossology.new uri token s = (Except.ok f, tr)) :
    f.uri = uri ∧ f.token = token ∧
    (Fossology.versionProbe uri token s).1 = Except.ok f.version ∧
    (Fossology.versionProbe uri token s).2 = tr ∧
    (∀ g : Fossology, ∀ v : String, g.version = f.version →
      g.version_is_at_least v = f.version_is_at_least v) := by
  unfold Fossology.new at h
  rcases hp : Fossology.versionProbe uri token s with ⟨r, tr2⟩
  rw [hp] at h
  cases r with
  | ok v =>
    simp only [Prod.mk.injEq, Except.ok.injEq] at h
    obtain ⟨hf, htr⟩ := h
    subst hf htr
    refine ⟨rfl, rfl, rfl, rfl, ?_⟩
    intro g v2 hgv
    unfold Fossology.version_is_at_least
    rw [hgv]
  | error e =>
    simp at h

/-- C9 witness: the handle built against the sample modern server stores
the supplied uri, the supplied token and the probe's result, over the
probe's single-request trace. -/
theorem handle_fields_fixed_at_construction_witness :
    (⟨"http://s", "tok", "1.4.1"⟩ : Fossology).uri = "http://s" ∧
    (⟨"http://s", "tok", "1.4.1"⟩ : Fossology).token = "tok" ∧
    (Fossology.versionProbe "http://s" "tok"
        ⟨true, some sampleApiInformation, false, none⟩).1 =
      Except.ok (⟨"http://s", "tok", "1.4.1"⟩ : Fossology).version ∧
    (Fossology.versionProbe "http://s" "tok"
        ⟨true, some sampleApiInformation, false, none⟩).2 =
      [infoProbeRequest "http://s" "tok"] := by
  have h := handle_fields_fixed_at_construction "http://s" "tok"
    ⟨true, some sampleApiInformation, false, none⟩
    ⟨"http://s", "tok", "1.4.1"⟩ [infoProbeRequest "http://s" "tok"] rfl
  exact ⟨h.1, h.2.1, h.2.2.1, h.2.2.2.1⟩

/-! ## C4: the license lookup's two request forms -/

/-- C4: whichever way the 1.3.0 gate resolves, get_license issues exactly
one authenticated GET carrying the requested short name: the
path-parameter form license/{shortName} when the resolved version is at
least "1.3.0", and the header-parameter form GET license with the same
short name in a shortName header when it is below. -/
theorem get_license_form_by_gate (f : Fossology) (sn : String)
    (gn : Option String) (env : HttpExchange License) :
    (f.version_is_at_least "1.3.0" = Except.ok true →
      ∃ req, (get_license f sn gn env).2 = [req] ∧
        req.method = Method.get ∧
        req.url = f.uri ++ "/" ++ ("license/" ++ sn) ∧
        req.bearer = some f.token) ∧
    (f.version_is_at_least "1.3.0" = Except.ok false →
      ∃ req, (get_license f sn gn env).2 = [req] ∧
        req.method = Method.get ∧
        req.url = f.uri ++ "/" ++ "license" ∧
        req.bearer = some f.token ∧
        ("shortName", sn) ∈ req.headers) := by
  rcases env with ⟨so, bs, pt, pi⟩
  constructor
  · intro hg
    cases gn with
    | none =>
      refine ⟨f.init_get_with_token ("license/" ++ sn), ?_, rfl, rfl, rfl⟩
      cases so <;> simp [get_license, hg]
    | some g =>
      refine ⟨(f.init_get_with_token ("license/" ++ sn)).header "groupName" g,
        ?_, rfl, rfl, rfl⟩
      cases so <;> simp [get_license, hg]
  · intro hg
    cases gn with
    | none =>
      refine ⟨(f.init_get_with_token "license").header "shortName" sn,
        ?_, rfl, rfl, rfl, ?_⟩
      · cases so <;> simp [get_license, hg]
      · simp [Fossology.init_get_with_token, Request.header]
    | some g =>
      refine ⟨((f.init_get_with_token "license").header "shortName" sn).header
          "groupName" g, ?_, rfl, rfl, rfl, ?_⟩
      · cases so <;> simp [get_license, hg]
      · simp [Fossology.init_get_with_token, Request.header]

/-- C4 witness: at version "1.3.3" the lookup for "MIT" goes to the path
form; at version "1.2.0" it goes to the header form carrying the same
short name. -/
theorem get_license_form_by_gate_witness :
    (∃ req, (get_license ⟨"http://s", "tok", "1.3.3"⟩ "MIT" none
        ⟨true, "", none, none⟩).2 = [req] ∧
      req.method = Method.get ∧
      req.url = "http://s" ++ "/" ++ ("license/" ++ "MIT") ∧
      req.bearer = some "tok") ∧
    (∃ req, (get_license ⟨"http://s", "tok", "1.2.0"⟩ "MIT" none
        ⟨true, "", none, none⟩).2 = [req] ∧
      req.method = Method.get ∧
      req.url = "http://s" ++ "/" ++ "license" ∧
      req.bearer = some "tok" ∧
      ("shortName", "MIT") ∈ req.headers) := by
  constructor
  · exact (get_license_form_by_gate ⟨"http://s", "tok", "1.3.3"⟩ "MIT" none
      ⟨true, "", none, none⟩).1 rfl
  · exact (get_license_form_by_gate ⟨"http://s", "tok", "1.2.0"⟩ "MIT" none
      ⟨true, "", none, none⟩).2 rfl

/-! ## C5: the health check and the 1.3.3 gate

The claim places the 1.3.3 version gate on the health check.  In the
source the gate guards `info` (src/info.rs line 16), while `health`
(src/info.rs line 67) sends its request unconditionally, and without
`bearer_auth`; the claim fails on the code and is settled as corrected. -/

/-- C5 counterexample: against a handle whose resolved version is "1.0.0"
the health check still sends its request and can succeed with the
three-field record; it does not fail with UnsupportedVersion and does not
avoid the request. -/
theorem health_below_threshold_still_sends :
    (health ⟨"http://s", "tok", "1.0.0"⟩
        ⟨true, "", some ⟨"OK", ⟨"OK"⟩, ⟨"OK"⟩⟩, none⟩).2 =
      [⟨Method.get, "http://s" ++ "/health", [], [], none⟩] ∧
    (health ⟨"http://s", "tok", "1.0.0"⟩
        ⟨true, "", some ⟨"OK", ⟨"OK"⟩, ⟨"OK"⟩⟩, none⟩).1 =
      Except.ok ⟨"OK", ⟨"OK"⟩, ⟨"OK"⟩⟩ ∧
    (health ⟨"http://s", "tok", "1.0.0"⟩
        ⟨true, "", some ⟨"OK", ⟨"OK"⟩, ⟨"OK"⟩⟩, none⟩).1 ≠
      Except.error FossologyError.UnsupportedVersion := by
  refine ⟨rfl, rfl, ?_⟩
  intro h
  exact Except.noConfusion h

/-- C5 amended: the health check is not version-gated: for every handle it
sends exactly one unauthenticated GET /health whatever the resolved
version, and on a success payload returns the three-field record; the
operation gated at minimum version "1.3.3" is the server-info lookup
`info`, which below the threshold fails with UnsupportedVersion and sends
no request. -/
theorem health_ungated_and_info_gated (f : Fossology)
    (envh : HttpExchange Health) (enva : HttpExchange ApiInformation) :
    ((health f envh).2 = [⟨Method.get, f.uri ++ "/health", [], [], none⟩]) ∧
    (∀ h, envh.sendOk = true →
      decodeUntagged envh.parseT envh.parseInfo =
        some (FossologyResponse.Response h) →
      (health f envh).1 = Except.ok h) ∧
    (versionCompareGe f.version "1.3.3" = some false →
      info f enva = (Except.error FossologyError.UnsupportedVersion, [])) := by
  refine ⟨?_, ?_, ?_⟩
  · rcases envh with ⟨so, bs, pt, pi⟩
    cases so <;> simp [health]
  · intro h hs hd
    rcases envh with ⟨so, bs, pt, pi⟩
    simp only at hs hd
    subst hs
    simp [health, hd]
  · intro hv
    simp [info, hv]

/-- C5 witness: the amended statement at a version "1.0.0" handle: health
sends its single tokenless request and succeeds, and `info` at the same
handle fails with UnsupportedVersion over an empty trace. -/
theorem health_ungated_and_info_gated_witness :
    (health ⟨"http://s", "tok", "1.0.0"⟩
        ⟨true, "", some ⟨"OK", ⟨"OK"⟩, ⟨"OK"⟩⟩, none⟩).2 =
      [⟨Method.get, "http://s" ++ "/health", [], [], none⟩] ∧
    (health ⟨"http://s", "tok", "1.0.0"⟩
        ⟨true, "", some ⟨"OK", ⟨"OK"⟩, ⟨"OK"⟩⟩, none⟩).1 =
      Except.ok ⟨"OK", ⟨"OK"⟩, ⟨"OK"⟩⟩ ∧
    info ⟨"http://s", "tok", "1.0.0"⟩ ⟨true, "", none, none⟩ =
      (Except.error FossologyError.UnsupportedVersion, []) := by
  have h := health_ungated_and_info_gated ⟨"http://s", "tok", "1.0.0"⟩
    ⟨true, "", some ⟨"OK", ⟨"OK"⟩, ⟨"OK"⟩⟩, none⟩ ⟨true, "", none, none⟩
  exact ⟨h.1, h.2.1 ⟨"OK", ⟨"OK"⟩, ⟨"OK"⟩⟩ rfl rfl, h.2.2 rfl⟩

/-! ## C6: decode order and the fate of the raw bytes

The claim asserts that *every* endpoint surfaces a dual decode failure
with the raw response bytes.  Only `get_license` reads the bytes itself
and keeps them; the other endpoints decode through the transport
library's `.json()` and a dual failure surfaces as that library's error,
the body discarded; the claim is settled as corrected. -/

/-- C6 counterexample: a filesearch response matching neither shape yields
the transport library's error, which does not carry the raw response
bytes. -/
theorem filesearch_dual_failure_discards_bytes :
    (filesearch ⟨"http://s", "tok", "1.4.1"⟩ [] none
        ⟨true, "this is not json", none, none⟩).1 =
      Except.error FossologyError.RequestError ∧
    (filesearch ⟨"http://s", "tok", "1.4.1"⟩ [] none
        ⟨true, "this is not json", none, none⟩).1 ≠
      Except.error (FossologyError.UnexpectedResponse "this is not json") := by
  refine ⟨rfl, ?_⟩
  intro h
  exact FossologyError.noConfusion (Except.error.inj h)

/-- C6 amended: decoding tries the success shape first and the error
shape second (serde's untagged order); the license lookup surfaces a dual
decode failure as UnexpectedResponse carrying the raw response bytes,
while the endpoints that decode through the transport library surface it
as that library's error without the bytes. -/
theorem decode_order_and_license_raw_bytes {T : Type} (t : T)
    (oi : Option Info) (i : Info) (f : Fossology) (sn : String)
    (gn : Option String) (env : HttpExchange License) (gv : Bool) :
    decodeUntagged (some t) oi = some (FossologyResponse.Response t) ∧
    @decodeUntagged T none (some i) = some (FossologyResponse.ApiError i) ∧
    (f.version_is_at_least "1.3.0" = Except.ok gv → env.sendOk = true →
      decodeUntagged env.parseT env.parseInfo = none →
      (get_license f sn gn env).1 =
        Except.error (FossologyError.UnexpectedResponse env.bytes)) := by
  refine ⟨rfl, rfl, ?_⟩
  intro hg hs hd
  rcases env with ⟨so, bs, pt, pi⟩
  simp only at hs hd
  subst hs
  cases gv <;> cases gn <;> simp [get_license, hg, hd]

/-- A sample license payload used to instantiate theorems. -/
def sampleLicense : License :=
  ⟨247, "MIT", "MIT License", "MIT License Copyright (c)", some 1, some false⟩

/-- C6 witness: the untagged order at sample payloads, and the license
lookup at version "1.3.3" keeping the garbage bytes on dual failure. -/
theorem decode_order_and_license_raw_bytes_witness :
    decodeUntagged (some sampleLicense) none =
      some (FossologyResponse.Response sampleLicense) ∧
    @decodeUntagged License none (some ⟨404, "No license found", "error"⟩) =
      some (FossologyResponse.ApiError ⟨404, "No license found", "error"⟩) ∧
    (get_license ⟨"http://s", "tok", "1.3.3"⟩ "MIT" none
        ⟨true, "garbage bytes", none, none⟩).1 =
      Except.error (FossologyError.UnexpectedResponse "garbage bytes") := by
  have h := decode_order_and_license_raw_bytes sampleLicense none
    ⟨404, "No license found", "error"⟩ ⟨"http://s", "tok", "1.3.3"⟩ "MIT" none
    ⟨true, "garbage bytes", none, none⟩ true
  exact ⟨h.1, h.2.1, h.2.2 rfl rfl rfl⟩

/-! ## C7: discharging the response envelope

The claim asserts that no public operation hands the caller an
undischarged success-or-error envelope.  `get_jobs` (src/job.rs) returns
`Ok(response.json()?)`: the decoded envelope itself, undischarged; the
claim is settled as corrected. -/

/-- C7 counterexample: get_jobs hands the caller the decoded ApiError
envelope wrapped in Ok instead of converting it into a typed failure. -/
theorem get_jobs_returns_undischarged_envelope :
    (get_jobs ⟨"http://s", "tok", "1.4.1"⟩ none none none none
        ⟨true, "", none,
          some ⟨404, "No license found with provided shortName", "error"⟩⟩).1 =
      Except.ok (FossologyResponse.ApiError
        ⟨404, "No license found with provided shortName", "error"⟩) := rfl

/-- C7 amended: return_response_or_error unwraps a Success envelope and
converts an ApiError envelope into a typed failure carrying the service
message verbatim, and the per-endpoint inline matches (filesearch shown)
do the same; but get_jobs returns the decoded envelope to its caller
undischarged, wrapped only in Ok. -/
theorem envelope_discharge_except_get_jobs {T : Type} (t : T) (e e2 : Info)
    (f : Fossology) (u : Option Int) (g : Option String) (l p : Option Int)
    (env : HttpExchange (List Job))
    (envf : HttpExchange (List FilesearchResponse)) :
    FossologyResponse.return_response_or_error (FossologyResponse.Response t) =
      Except.ok t ∧
    FossologyResponse.return_response_or_error
        (FossologyResponse.ApiError e : FossologyResponse T) =
      Except.error (FossologyError.UnexpectedResponse e.message) ∧
    (envf.sendOk = true →
      decodeUntagged envf.parseT envf.parseInfo =
        some (FossologyResponse.ApiError e2) →
      (filesearch f [] none envf).1 =
        Except.error (FossologyError.Other e2.message)) ∧
    (∀ r, env.sendOk = true →
      decodeUntagged env.parseT env.parseInfo = some r →
      (get_jobs f u g l p env).1 = Except.ok r) := by
  refine ⟨rfl, rfl, ?_, ?_⟩
  · intro hs hd
    rcases envf with ⟨so, bs, pt, pi⟩
    simp only at hs hd
    subst hs
    simp [filesearch, hd]
  · intro r hs hd
    rcases env with ⟨so, bs, pt, pi⟩
    simp only at hs hd
    subst hs
    cases u <;> cases g <;> cases l <;> cases p <;> simp [get_jobs, hd]

/-- C7 witness: the conversion at a sample payload and message, and
get_jobs handing back a decoded Success envelope as is. -/
theorem envelope_discharge_except_get_jobs_witness :
    FossologyResponse.return_response_or_error
        (FossologyResponse.Response sampleLicense) =
      Except.ok sampleLicense ∧
    FossologyResponse.return_response_or_error
        (FossologyResponse.ApiError ⟨404, "No license found", "error"⟩ :
          FossologyResponse License) =
      Except.error (FossologyError.UnexpectedResponse "No license found") ∧
    (filesearch ⟨"http://s", "tok", "1.4.1"⟩ [] none
        ⟨true, "", none, some ⟨403, "Access denied", "error"⟩⟩).1 =
      Except.error (FossologyError.Other "Access denied") ∧
    (get_jobs ⟨"http://s", "tok", "1.4.1"⟩ none none none none
        ⟨true, "", some [], none⟩).1 =
      Except.ok (FossologyResponse.Response ([] : List Job)) := by
  have h := envelope_discharge_except_get_jobs sampleLicense
    ⟨404, "No license found", "error"⟩ ⟨403, "Access denied", "error"⟩
    ⟨"http://s", "tok", "1.4.1"⟩ none none none none
    ⟨true, "", some [], none⟩ ⟨true, "", none, some ⟨403, "Access denied", "error"⟩⟩
  exact ⟨h.1, h.2.1, h.2.2.1 rfl rfl,
    h.2.2.2 (FossologyResponse.Response ([] : List Job)) rfl rfl⟩

/-! ## C8: filesearch drops the "Not found" entries -/

/-- C8: a successful filesearch returns the service's list with exactly
the entries whose message equals the literal "Not found" removed: the
result is an order-preserving sublist of the response holding an entry
exactly when the response held it with a different message. -/
theorem filesearch_drops_not_found (f : Fossology) (hs : List Hash)
    (gn : Option String) (env : HttpExchange (List FilesearchResponse))
    (res : List FilesearchResponse) (hsend : env.sendOk = true)
    (hdec : decodeUntagged env.parseT env.parseInfo =
      some (FossologyResponse.Response res)) :
    (filesearch f hs gn env).1 =
      Except.ok (res.filter fun i => decide ¬(i.message = some "Not found")) ∧
    (res.filter fun i => decide ¬(i.message = some "Not found")).Sublist res ∧
    (∀ x, x ∈ res.filter (fun i => decide ¬(i.message = some "Not found")) ↔
      (x ∈ res ∧ x.message ≠ some "Not found")) := by
  refine ⟨?_, List.filter_sublist res, ?_⟩
  · rcases env with ⟨so, bs, pt, pi⟩
    simp only at hsend hdec
    subst hsend
    cases gn <;> simp [filesearch, hdec]
  · intro x
    simp [List.mem_filter]

/-- An entry matching a previously scanned upload. -/
def foundEntry : FilesearchResponse :=
  ⟨⟨none, none, some "ABC123", none⟩, none, [12], none⟩

/-- An entry for an unknown hash, carrying the service's "Not found". -/
def notFoundEntry : FilesearchResponse :=
  ⟨⟨none, none, some "DEF456", none⟩, none, [], some "Not found"⟩

/-- C8 witness: with one matching and one unknown hash in the response,
the returned list holds exactly the match. -/
theorem filesearch_drops_not_found_witness :
    (filesearch ⟨"http://s", "tok", "1.4.1"⟩ [] none
        ⟨true, "", some [foundEntry, notFoundEntry], none⟩).1 =
      Except.ok [foundEntry] := by
  have h := (filesearch_drops_not_found ⟨"http://s", "tok", "1.4.1"⟩ [] none
    ⟨true, "", some [foundEntry, notFoundEntry], none⟩
    [foundEntry, notFoundEntry] rfl rfl).1
  rw [h]
  rfl

/-! ## C10: get_upload_by_id and the missing-upload envelope -/

/-- C10: with a delivered response, get_upload_by_id yields Ok none
exactly when the service answered with an error envelope whose message is
the literal "Upload does not exist"; a success payload yields Ok some,
and any other error envelope becomes a typed failure carrying its
message. -/
theorem get_upload_by_id_none_iff (f : Fossology) (uid : Int)
    (env : HttpExchange Upload) (hsend : env.sendOk = true) :
    ((get_upload_by_id f uid env).1 = Except.ok none ↔
      ∃ e, decodeUntagged env.parseT env.parseInfo =
          some (FossologyResponse.ApiError e) ∧
        e.message = "Upload does not exist") ∧
    (∀ u, decodeUntagged env.parseT env.parseInfo =
        some (FossologyResponse.Response u) →
      (get_upload_by_id f uid env).1 = Except.ok (some u)) ∧
    (∀ e, decodeUntagged env.parseT env.parseInfo =
        some (FossologyResponse.ApiError e) →
      e.message ≠ "Upload does not exist" →
      (get_upload_by_id f uid env).1 =
        Except.error (FossologyError.Other e.message)) := by
  rcases env with ⟨so, bs, pt, pi⟩
  simp only at hsend
  subst hsend
  refine ⟨?_, ?_, ?_⟩
  · cases hd : decodeUntagged pt pi with
    | none => simp [get_upload_by_id, hd]
    | some r =>
      cases r with
      | Response u => simp [get_upload_by_id, hd]
      | ApiError e =>
        by_cases hm : e.message = "Upload does not exist"
        · simp [get_upload_by_id, hd, hm]
        · simp [get_upload_by_id, hd, hm]
  · intro u hd
    simp [get_upload_by_id, hd]
  · intro e hd hm
    simp [get_upload_by_id, hd, hm]

/-- C10 witness: the exact "Upload does not exist" envelope yields Ok
none. -/
theorem get_upload_by_id_none_iff_witness :
    (get_upload_by_id ⟨"http://s", "tok", "1.4.1"⟩ 99999
        ⟨true, "", none, some ⟨404, "Upload does not exist", "error"⟩⟩).1 =
      Except.ok none := by
  have h := (get_upload_by_id_none_iff ⟨"http://s", "tok", "1.4.1"⟩ 99999
    ⟨true, "", none, some ⟨404, "Upload does not exist", "error"⟩⟩ rfl).1
  exact h.mpr ⟨⟨404, "Upload does not exist", "error"⟩, rfl, rfl⟩
